import Mathlib

/-!
Verification development for the `common_go` repository.

Shallow embedding of the two components of the repository:
the cache abstraction (`src/caches/cache.go`) and the NSQ message-broker
client (`src/nsq/consumer.go` plus the registration/publish files of the
`nsq` package).

Modelling conventions.
* Go `interface{}` values flowing through the cache layer are modelled by
  `GoVal`: either a structured JSON-data value (`JVal`) or a raw byte slice
  (`Bytes`).  Numbers are modelled on the integer line (Go decodes JSON
  numbers as `float64`; equality of the decoded number with the stored one
  is numeric, which the integer model captures exactly for the integral
  fragment).
* Byte slices are modelled symbolically by `Bytes`: `Bytes.jsonOf v` is the
  byte sequence produced by `json.Marshal` on the value `v`, and
  `Bytes.rawStr s` is the byte content of the plain string `s`.  The
  external `encoding/json` package is modelled by its contract:
  `Marshal` tags the (canonicalised) value, `Unmarshal` inverts the tag,
  and raw byte strings are decoded with an executable JSON reader
  (`jsonParse`, integral-number fragment, no floats).
* The external memcache / go-redis clients are opaque capability providers;
  their stores are modelled as explicit `Store` states threaded through the
  operations, and the go-redis argument encoder is modelled from its
  documented `WriteArg` dispatch (`redisWriteArg`).
* Go byte strings are identified with Lean `String`s; the byte view used by
  the base64 encoder is the codepoint view, exact for ASCII content.
-/

set_option autoImplicit false

/-- JSON data values: the canonical data domain that `encoding/json`
round-trips through `interface{}` (numbers restricted to integers). -/
inductive JVal where
  | jnull : JVal
  | jbool (b : Bool) : JVal
  | jint (n : Int) : JVal
  | jstr (s : String) : JVal
  | jarr (elems : List JVal) : JVal
  | jobj (fields : List (String × JVal)) : JVal

/-- Byte slices (`[]byte`), symbolically: either the output of
`json.Marshal` on a data value, or the bytes of a plain string. -/
inductive Bytes where
  | jsonOf (v : JVal) : Bytes
  | rawStr (s : String) : Bytes

/-- A Go `interface{}` value as it appears in this development: a
structured data value or a raw byte slice. -/
inductive GoVal where
  | plain (v : JVal) : GoVal
  | bytes (b : Bytes) : GoVal

/-- Errors surfaced by the cache and broker layers. -/
inductive Err where
  | cacheMiss : Err
  | redisNil : Err
  | unmarshalFailure : Err
  | cantMarshal : Err
  | consumeFailed (topic : String) : Err
  | other (msg : String) : Err
deriving DecidableEq

/-- Rendered message of an error (only the shapes the claims mention). -/
def Err.message : Err → String
  | .cacheMiss => "memcache: cache miss"
  | .redisNil => "redis: nil"
  | .unmarshalFailure => "json: cannot unmarshal"
  | .cantMarshal => "redis: can't marshal (implement encoding.BinaryMarshaler)"
  | .consumeFailed topic => "failed to consume the topic " ++ topic
  | .other msg => msg

/-- JSON string escaping for one character (the characters the development
exercises; Go additionally escapes control and HTML characters). -/
def jsonEscapeChar (c : Char) : String :=
  if c = '"' then "\\\""
  else if c = '\\' then "\\\\"
  else if c = '\n' then "\\n"
  else if c = '\t' then "\\t"
  else if c = '\r' then "\\r"
  else String.singleton c

/-- Render a JSON string literal with quotes and escapes. -/
def renderString (s : String) : String :=
  "\"" ++ String.join (s.toList.map jsonEscapeChar) ++ "\""

mutual

/-- Textual JSON rendering of a data value (the concrete byte content that
`Bytes.jsonOf` stands for). -/
def jsonRender : JVal → String
  | .jnull => "null"
  | .jbool true => "true"
  | .jbool false => "false"
  | .jint n => toString n
  | .jstr s => renderString s
  | .jarr elems => "[" ++ renderElems elems ++ "]"
  | .jobj fields => "\x7b" ++ renderFields fields ++ "\x7d"

/-- Render array elements, comma separated. -/
def renderElems : List JVal → String
  | [] => ""
  | [v] => jsonRender v
  | v :: vs => jsonRender v ++ "," ++ renderElems vs

/-- Render object fields, comma separated. -/
def renderFields : List (String × JVal) → String
  | [] => ""
  | [(k, v)] => renderString k ++ ":" ++ jsonRender v
  | (k, v) :: fs => renderString k ++ ":" ++ jsonRender v ++ "," ++ renderFields fs

end

/-- The concrete byte content a `Bytes` value stands for. -/
def bytesToString : Bytes → String
  | .jsonOf v => jsonRender v
  | .rawStr s => s

/-- The standard base64 alphabet. -/
def base64Alphabet : List Char :=
  "ABCDEFGHIJKLMNOPQRSTUVWXYZabcdefghijklmnopqrstuvwxyz0123456789+/".toList

/-- The base64 digit for a 6-bit group. -/
def b64Char (n : Nat) : Char := base64Alphabet.getD n 'A'

/-- Byte view of a string (codepoint view; exact for ASCII content). -/
def stringBytes (s : String) : List Nat := s.toList.map Char.toNat

/-- Standard base64 of a byte list, with `=` padding. -/
def base64Go : List Nat → String
  | [] => ""
  | [a] => String.mk [b64Char (a / 4), b64Char ((a % 4) * 16)] ++ "=="
  | [a, b] =>
      String.mk [b64Char (a / 4), b64Char ((a % 4) * 16 + b / 16),
        b64Char ((b % 16) * 4)] ++ "="
  | a :: b :: c :: rest =>
      String.mk [b64Char (a / 4), b64Char ((a % 4) * 16 + b / 16),
        b64Char ((b % 16) * 4 + c / 64), b64Char (c % 64)] ++ base64Go rest

/-- Base64 encoding of a string's bytes, as `json.Marshal` applies to
`[]byte` values. -/
def base64Encode (s : String) : String := base64Go (stringBytes s)

/-- Canonicalisation performed by `json.Marshal` on an `interface{}` value:
structured values marshal as themselves, byte slices marshal as the base64
string of their content. -/
def goToJson : GoVal → JVal
  | .plain v => v
  | .bytes b => .jstr (base64Encode (bytesToString b))

/-- Skip JSON whitespace. -/
def skipWs : List Char → List Char
  | c :: cs => if c = ' ' ∨ c = '\n' ∨ c = '\t' ∨ c = '\r' then skipWs cs else c :: cs
  | [] => []

/-- Read the remainder of a JSON string literal (after the opening quote),
handling the basic escapes.  Returns the string and the rest of the input. -/
def parseStringChars : Nat → List Char → List Char → Option (String × List Char)
  | 0, _, _ => none
  | _, [], _ => none
  | fuel + 1, c :: rest, acc =>
    if c = '"' then some (String.mk acc.reverse, rest)
    else if c = '\\' then
      match rest with
      | [] => none
      | e :: rest2 =>
        let dec : Option Char :=
          if e = '"' then some '"'
          else if e = '\\' then some '\\'
          else if e = '/' then some '/'
          else if e = 'n' then some '\n'
          else if e = 't' then some '\t'
          else if e = 'r' then some '\r'
          else none
        match dec with
        | some d => parseStringChars fuel rest2 (d :: acc)
        | none => none
    else parseStringChars fuel rest (c :: acc)

/-- Take a maximal run of decimal digits. -/
def takeDigits : List Char → (List Char × List Char)
  | [] => ([], [])
  | c :: cs =>
    if c.isDigit then
      let p := takeDigits cs
      (c :: p.1, p.2)
    else ([], c :: cs)

/-- Decimal value of a digit run. -/
def digitsToNat (l : List Char) : Nat :=
  l.foldl (fun a c => a * 10 + (c.toNat - 48)) 0

/-- Read a JSON number (integral fragment: optional minus and digits). -/
def parseNum (cs : List Char) : Option (JVal × List Char) :=
  match cs with
  | '-' :: rest =>
    let p := takeDigits rest
    if p.1.isEmpty then none else some (.jint (-(digitsToNat p.1 : Int)), p.2)
  | _ =>
    let p := takeDigits cs
    if p.1.isEmpty then none else some (.jint (digitsToNat p.1), p.2)

mutual

/-- Read one JSON value (integral-number fragment), fuel-bounded. -/
def parseVal : Nat → List Char → Option (JVal × List Char)
  | 0, _ => none
  | fuel + 1, cs =>
    match skipWs cs with
    | [] => none
    | c :: rest =>
      if c = 'n' then
        match rest with
        | 'u' :: 'l' :: 'l' :: r => some (.jnull, r)
        | _ => none
      else if c = 't' then
        match rest with
        | 'r' :: 'u' :: 'e' :: r => some (.jbool true, r)
        | _ => none
      else if c = 'f' then
        match rest with
        | 'a' :: 'l' :: 's' :: 'e' :: r => some (.jbool false, r)
        | _ => none
      else if c = '"' then
        match parseStringChars fuel rest [] with
        | some p => some (.jstr p.1, p.2)
        | none => none
      else if c = '-' ∨ c.isDigit then parseNum (c :: rest)
      else if c = '[' then
        match skipWs rest with
        | c2 :: r2 =>
          if c2 = ']' then some (.jarr [], r2)
          else
            match parseElems fuel (c2 :: r2) with
            | some p => some (.jarr p.1, p.2)
            | none => none
        | [] => none
      else if c = Char.ofNat 123 then
        match skipWs rest with
        | c2 :: r2 =>
          if c2 = Char.ofNat 125 then some (.jobj [], r2)
          else
            match parseFields fuel (c2 :: r2) with
            | some p => some (.jobj p.1, p.2)
            | none => none
        | [] => none
      else none

/-- Read a non-empty comma-separated element list up to `]`. -/
def parseElems : Nat → List Char → Option (List JVal × List Char)
  | 0, _ => none
  | fuel + 1, cs =>
    match parseVal fuel cs with
    | none => none
    | some (v, r) =>
      match skipWs r with
      | ',' :: r2 =>
        match parseElems fuel r2 with
        | some p => some (v :: p.1, p.2)
        | none => none
      | c2 :: r2 => if c2 = ']' then some ([v], r2) else none
      | [] => none

/-- Read a non-empty comma-separated field list up to the closing brace. -/
def parseFields : Nat → List Char → Option (List (String × JVal) × List Char)
  | 0, _ => none
  | fuel + 1, cs =>
    match skipWs cs with
    | c :: rest =>
      if c = '"' then
        match parseStringChars fuel rest [] with
        | none => none
        | some (k, r) =>
          match skipWs r with
          | ':' :: r2 =>
            match parseVal fuel r2 with
            | none => none
            | some (v, r3) =>
              match skipWs r3 with
              | ',' :: r4 =>
                match parseFields fuel r4 with
                | some p => some ((k, v) :: p.1, p.2)
                | none => none
              | c2 :: r4 => if c2 = Char.ofNat 125 then some ([(k, v)], r4) else none
              | [] => none
          | _ => none
      else none
    | [] => none

end

/-- Parse a complete JSON document (integral-number fragment), the model of
`json.Unmarshal` applied to raw byte strings. -/
def jsonParse (s : String) : Option JVal :=
  match parseVal (s.length + 1) s.toList with
  | some (v, r) => if (skipWs r).isEmpty then some v else none
  | none => none

/-- Model of `json.Marshal` on an `interface{}` value.  On the values of
this domain marshalling always succeeds; the error branch of the source is
kept for the shapes (channels, functions) outside the domain. -/
def jsonMarshal (value : GoVal) : Except Err Bytes :=
  .ok (.jsonOf (goToJson value))

/-- Model of `json.Marshal` on a `[]interface{}` slice. -/
def jsonMarshalMulti (value : List GoVal) : Except Err Bytes :=
  .ok (.jsonOf (.jarr (value.map goToJson)))

/-- Model of `json.Unmarshal` into an `interface{}` target. -/
def jsonUnmarshal (b : Bytes) : Except Err GoVal :=
  match b with
  | .jsonOf v => .ok (.plain v)
  | .rawStr s =>
    match jsonParse s with
    | some v => .ok (.plain v)
    | none => .error .unmarshalFailure

/-- Model of `json.Unmarshal` into a `*[]interface{}` target: the document
must be a JSON array. -/
def jsonUnmarshalMulti (b : Bytes) : Except Err (List GoVal) :=
  match b with
  | .jsonOf (.jarr l) => .ok (l.map .plain)
  | .jsonOf _ => .error .unmarshalFailure
  | .rawStr s =>
    match jsonParse s with
    | some (.jarr l) => .ok (l.map .plain)
    | some _ => .error .unmarshalFailure
    | none => .error .unmarshalFailure

/-- The key-value state of one backend store (memcache or redis). -/
abbrev Store := String → Option Bytes

/-- The empty store. -/
def Store.empty : Store := fun _ => none

/-- Store update: write bytes under a key. -/
def Store.set (st : Store) (key : String) (b : Bytes) : Store :=
  fun q => if q = key then some b else st q

/-- Model of the external memcache client's `Get`: `ErrCacheMiss` when the
key is absent, the stored item's bytes otherwise. -/
def memcacheClientGet (st : Store) (key : String) : Except Err Bytes :=
  match st key with
  | some b => .ok b
  | none => .error .cacheMiss

/-- `memcacheCache.SetSingle` (src/caches/cache.go:55-64): JSON-marshal the
value, then store the resulting bytes under the key. -/
def memcacheCache.SetSingle (st : Store) (key : String) (value : GoVal) :
    Except Err Store :=
  match jsonMarshal value with
  | .error e => .error e
  | .ok result => .ok (Store.set st key result)

/-- `memcacheCache.GetSingle` (src/caches/cache.go:69-77): fetch the item
and return its raw byte value (`resp.Value`) as the record, with no
deserialization. -/
def memcacheCache.GetSingle (st : Store) (key : String) : Except Err GoVal :=
  match memcacheClientGet st key with
  | .error e => .error e
  | .ok resp => .ok (.bytes resp)

/-- `memcacheCache.SetMultiple` (src/caches/cache.go:82-92): JSON-marshal
the slice, then store the resulting bytes under the key. -/
def memcacheCache.SetMultiple (st : Store) (key : String) (value : List GoVal) :
    Except Err Store :=
  match jsonMarshalMulti value with
  | .error e => .error e
  | .ok result => .ok (Store.set st key result)

/-- `memcacheCache.GetMultiple` (src/caches/cache.go:97-109): fetch the
item and JSON-unmarshal its bytes into a `MultipleDataRecord`. -/
def memcacheCache.GetMultiple (st : Store) (key : String) :
    Except Err (List GoVal) :=
  match memcacheClientGet st key with
  | .error e => .error e
  | .ok resp => jsonUnmarshalMulti resp

/-- Model of the external go-redis client's argument encoder (`WriteArg`):
plain strings and byte slices are written as their raw bytes, integers as
their decimal form, booleans as `1`/`0`, nil as the empty string; any other
type (slices, maps) falls to the default case and is rejected with a
can't-marshal error. -/
def redisWriteArg : GoVal → Except Err String
  | .plain .jnull => .ok ""
  | .plain (.jbool b) => .ok (if b then "1" else "0")
  | .plain (.jint n) => .ok (toString n)
  | .plain (.jstr s) => .ok s
  | .plain (.jarr _) => .error .cantMarshal
  | .plain (.jobj _) => .error .cantMarshal
  | .bytes b => .ok (bytesToString b)

/-- Model of the external go-redis client's argument encoder applied to a
`[]interface{}` value: the slice type implements none of the supported
cases, so it is always rejected with a can't-marshal error. -/
def redisWriteArgMulti (_value : List GoVal) : Except Err String :=
  .error .cantMarshal

/-- `redisCache.SetSingle` (src/caches/cache.go:114-116): pass the value
directly to the client's `Set` with no pre-serialization; the client's own
argument encoding shapes the stored bytes (expiration 0 is not modelled). -/
def redisCache.SetSingle (st : Store) (key : String) (value : GoVal) :
    Except Err Store :=
  match redisWriteArg value with
  | .error e => .error e
  | .ok s => .ok (Store.set st key (.rawStr s))

/-- `redisCache.GetSingle` (src/caches/cache.go:121-131): fetch the stored
string (`redis.Nil` when absent) and JSON-unmarshal its bytes into a
`SingleDataRecord`. -/
def redisCache.GetSingle (st : Store) (key : String) : Except Err GoVal :=
  match st key with
  | none => .error .redisNil
  | some b => jsonUnmarshal b

/-- `redisCache.SetMultiple` (src/caches/cache.go:136-138): pass the slice
directly to the client's `Set` with no pre-serialization. -/
def redisCache.SetMultiple (st : Store) (key : String) (value : List GoVal) :
    Except Err Store :=
  match redisWriteArgMulti value with
  | .error e => .error e
  | .ok s => .ok (Store.set st key (.rawStr s))

/-- `redisCache.GetMultiple` (src/caches/cache.go:143-153): fetch the
stored string and JSON-unmarshal its bytes into a `MultipleDataRecord`. -/
def redisCache.GetMultiple (st : Store) (key : String) :
    Except Err (List GoVal) :=
  match st key with
  | none => .error .redisNil
  | some b => jsonUnmarshalMulti b

/-- The `Cache` interface (src/caches/cache.go:24-34): the four operations,
as functions over an explicit backend store state. -/
structure CacheOps where
  SetSingle : Store → String → GoVal → Except Err Store
  GetSingle : Store → String → Except Err GoVal
  SetMultiple : Store → String → List GoVal → Except Err Store
  GetMultiple : Store → String → Except Err (List GoVal)

/-- The memcache adapter as a `Cache` value. -/
def memcacheOps : CacheOps :=
  { SetSingle := memcacheCache.SetSingle
    GetSingle := memcacheCache.GetSingle
    SetMultiple := memcacheCache.SetMultiple
    GetMultiple := memcacheCache.GetMultiple }

/-- The redis adapter as a `Cache` value. -/
def redisOps : CacheOps :=
  { SetSingle := redisCache.SetSingle
    GetSingle := redisCache.GetSingle
    SetMultiple := redisCache.SetMultiple
    GetMultiple := redisCache.GetMultiple }

/-- `cacheStruct` (src/caches/cache.go:46-49): wraps a `Cache`
implementation by embedding it. -/
structure cacheStruct where
  toCache : CacheOps

/-- Promoted method of the embedded `Cache`: `SetSingle` delegates. -/
def cacheStruct.SetSingle (w : cacheStruct) : Store → String → GoVal → Except Err Store :=
  w.toCache.SetSingle

/-- Promoted method of the embedded `Cache`: `GetSingle` delegates. -/
def cacheStruct.GetSingle (w : cacheStruct) : Store → String → Except Err GoVal :=
  w.toCache.GetSingle

/-- Promoted method of the embedded `Cache`: `SetMultiple` delegates. -/
def cacheStruct.SetMultiple (w : cacheStruct) : Store → String → List GoVal → Except Err Store :=
  w.toCache.SetMultiple

/-- Promoted method of the embedded `Cache`: `GetMultiple` delegates. -/
def cacheStruct.GetMultiple (w : cacheStruct) : Store → String → Except Err (List GoVal) :=
  w.toCache.GetMultiple

/-- `NewCache` (src/caches/cache.go:186-190): wrap an existing `Cache`
implementation in a `cacheStruct`. -/
def NewCache (cache : CacheOps) : cacheStruct :=
  { toCache := cache }

/-- The `Cache` value a `cacheStruct` presents through its promoted
methods (how the wrapper satisfies the `Cache` interface). -/
def cacheStruct.ops (w : cacheStruct) : CacheOps :=
  { SetSingle := w.SetSingle
    GetSingle := w.GetSingle
    SetMultiple := w.SetMultiple
    GetMultiple := w.GetMultiple }

/-- A value stashed in a context: the string case the code expects, or any
non-nil value of another dynamic type (a stored nil behaves as absent). -/
inductive CtxVal where
  | str (s : String) : CtxVal
  | nonString : CtxVal
deriving DecidableEq

/-- Model of `context.Context`: the stashed key-value pairs (innermost
first) and the deadline, in seconds from now, if one is set. -/
structure Ctx where
  vals : List (String × CtxVal)
  timeoutSeconds : Option Nat

/-- `context.Background()`: no values, no deadline. -/
def Ctx.background : Ctx := { vals := [], timeoutSeconds := none }

/-- `context.WithValue`: stash a value under a key, shadowing outer
entries for the same key. -/
def Ctx.withValue (c : Ctx) (key : String) (v : CtxVal) : Ctx :=
  { c with vals := (key, v) :: c.vals }

/-- `context.WithTimeout`: bound the context by a deadline, never later
than an already-present one. -/
def Ctx.withTimeout (c : Ctx) (seconds : Nat) : Ctx :=
  { c with
    timeoutSeconds :=
      some (match c.timeoutSeconds with
        | none => seconds
        | some m => min m seconds) }

/-- `ctx.Value(key)`: innermost stashed value for the key, if any. -/
def Ctx.value (c : Ctx) (key : String) : Option CtxVal :=
  List.lookup key c.vals

/-- `Client` (the nsq package): the producer handle, modelled by its send
behaviour (topic and message to the outcome the broker reports), and the
lookupd address.  The `Config` field carries no behaviour here. -/
structure Client where
  Pub : String → String → Option Err
  Lookupd : String

/-- Outcome of `Client.Consume`: the returned pair, or a panic from the
unchecked type assertion `ctx.Value(topic).(string)`. -/
inductive ConsumeResult where
  | ok (value : String) : ConsumeResult
  | err (e : Err) : ConsumeResult
  | panicked : ConsumeResult
deriving DecidableEq

/-- `Client.Consume` (src/nsq/consumer.go:13-21): if the context carries a
value under the topic key, return it through the type assertion
`.(string)` (which panics on a non-string value); otherwise return the
empty string and a failed-to-consume error. -/
def Client.Consume (_c : Client) (ctx : Ctx) (topic : String) : ConsumeResult :=
  match ctx.value topic with
  | some (.str s) => .ok s
  | some .nonString => .panicked
  | none => .err (.consumeFailed topic)

/-- `NsqEvent`: topic name and message content (bytes as a string). -/
structure NsqEvent where
  Topic : String
  Message : String

/-- Outcome of `Client.Publish`: the returned error value, or a panic from
dereferencing a nil `*NsqEvent`. -/
inductive PublishResult where
  | ret (err : Option Err) : PublishResult
  | nilDeref : PublishResult
deriving DecidableEq

/-- `Client.Publish` (the nsq package's publish file): dereference the
event and hand `event.Message` to the producer under `event.Topic`,
returning the producer's error unchanged.  The result also records the
sends handed to the producer; a nil event pointer panics before any
send. -/
def Client.Publish (c : Client) (_ctx : Ctx) (event : Option NsqEvent) :
    PublishResult × List (String × String) :=
  match event with
  | none => (.nilDeref, [])
  | some ev => (.ret (c.Pub ev.Topic ev.Message), [(ev.Topic, ev.Message)])

/-- `ConsumerFunc` (src/unnamed/part_001:14): the caller-supplied
processing function. -/
def ConsumerFunc : Type := Ctx → String → Option Err

/-- An inbound NSQ message; `Body` is the byte content as a string
(the handler's `string(message.Body)` decode). -/
structure NsqMessage where
  Body : String

/-- Observable outcome of one run of the installed per-message handler:
the scope-topic pairs the processing function was invoked with, the error
the processing function returned, the error the handler returned to the
broker (none = nil), and whether `message.Requeue` was called. -/
structure HandlerOutcome where
  cfCalls : List (Ctx × String)
  cfResult : Option Err
  handlerReturn : Option Err
  requeued : Bool

/-- The execution scope the handler builds for one message
(src/unnamed/part_001:58-60): the decoded body stashed under the topic
name on a background context, bounded by a 30-second deadline. -/
def handlerScope (topic body : String) : Ctx :=
  Ctx.withTimeout (Ctx.withValue Ctx.background topic (.str body)) 30

/-- The per-message handler installed by `RegisterConsumer` via
`AddHandler` (src/unnamed/part_001:57-73): decode the body, build the
scope, run the wrapper closure `func() error { cf(ctx, topic); return nil }`
— which calls the processing function, discards its error and returns nil
— and requeue only when that wrapper reports an error. -/
def registeredHandler (cf : ConsumerFunc) (topic : String)
    (message : NsqMessage) : HandlerOutcome :=
  let body := message.Body
  let ctx := handlerScope topic body
  let cfResult := cf ctx topic
  let wrapperErr : Option Err := none
  match wrapperErr with
  | some e =>
    { cfCalls := [(ctx, topic)], cfResult := cfResult,
      handlerReturn := some e, requeued := true }
  | none =>
    { cfCalls := [(ctx, topic)], cfResult := cfResult,
      handlerReturn := none, requeued := false }

/-- `Client.RegisterConsumer` (src/unnamed/part_001:51-79): create the
consumer (an external call whose outcome is the `newConsumerErr`
parameter), install the per-message handler, then connect to lookupd at
`c.Lookupd` (outcome `connectErr`); on success the installed handler is
returned as the registration's result. -/
def Client.RegisterConsumer (c : Client) (topic : String) (cf : ConsumerFunc)
    (newConsumerErr : Option Err) (connectErr : String → Option Err) :
    Except Err (NsqMessage → HandlerOutcome) :=
  match newConsumerErr with
  | some e => .error e
  | none =>
    let handler := registeredHandler cf topic
    match connectErr c.Lookupd with
    | some e => .error e
    | none => .ok handler

/-- C1: the per-message handler installed by `RegisterConsumer` wraps the
processing function in a closure that discards its error and returns nil,
so for every inbound message the handler reports success (nil) to the
broker and the `message.Requeue` branch is never taken, whatever error the
processing function returns; on successful registration the installed
handler is exactly this handler. -/
theorem c1_handler_discards_cf_error (c : Client) (cf : ConsumerFunc)
    (topic : String) (msg : NsqMessage) :
    (registeredHandler cf topic msg).handlerReturn = none ∧
    (registeredHandler cf topic msg).requeued = false ∧
    (registeredHandler cf topic msg).cfResult = cf (handlerScope topic msg.Body) topic ∧
    c.RegisterConsumer topic cf none (fun _ => none) = .ok (registeredHandler cf topic) :=
  ⟨rfl, rfl, rfl, rfl⟩

/-- C3: for every message with body b, the installed handler invokes the
processing function exactly once, with the scope that stashes the decoded
body under the topic name and carries the 30-second deadline, and
`Consume` on that scope and topic returns exactly the body. -/
theorem c3_handler_scope_consume (c : Client) (cf : ConsumerFunc)
    (topic : String) (msg : NsqMessage) :
    (registeredHandler cf topic msg).cfCalls = [(handlerScope topic msg.Body, topic)] ∧
    (handlerScope topic msg.Body).value topic = some (.str msg.Body) ∧
    (handlerScope topic msg.Body).timeoutSeconds = some 30 ∧
    c.Consume (handlerScope topic msg.Body) topic = .ok msg.Body := by
  have hv : (handlerScope topic msg.Body).value topic = some (.str msg.Body) := by
    simp [handlerScope, Ctx.value, Ctx.withTimeout, Ctx.withValue, Ctx.background,
      List.lookup]
  exact ⟨rfl, hv, rfl, by simp [Client.Consume, hv]⟩

/-- C4: `Consume` returns the stashed string with nil error when the scope
carries a string under the topic key; when the scope carries nothing under
that key it returns the empty-string/"failed to consume" pair; and every
successfully returned value was stashed in the scope — nothing is
fabricated. -/
theorem c4_consume_never_fabricates (c : Client) (ctx : Ctx) (topic : String) :
    (∀ s, ctx.value topic = some (.str s) → c.Consume ctx topic = .ok s) ∧
    (ctx.value topic = none → c.Consume ctx topic = .err (.consumeFailed topic)) ∧
    (Err.consumeFailed topic).message = "failed to consume the topic " ++ topic ∧
    (∀ s, c.Consume ctx topic = .ok s → ctx.value topic = some (.str s)) := by
  refine ⟨?_, ?_, rfl, ?_⟩
  · intro s h; simp [Client.Consume, h]
  · intro h; simp [Client.Consume, h]
  · intro s h
    cases hv : ctx.value topic with
    | none => simp [Client.Consume, hv] at h
    | some v =>
      cases v with
      | str t =>
        simp [Client.Consume, hv] at h
        subst h
        rfl
      | nonString => simp [Client.Consume, hv] at h

/-- C9: `Consume` panics on the unchecked type assertion exactly when the
scope carries a non-nil, non-string value under the topic key; under the
precondition that any stashed value is a string it never panics. -/
theorem c9_consume_panics_iff_nonstring (c : Client) (ctx : Ctx) (topic : String) :
    c.Consume ctx topic = .panicked ↔ ctx.value topic = some .nonString := by
  unfold Client.Consume
  cases hv : ctx.value topic with
  | none => simp
  | some v => cases v <;> simp

/-- C8: `Publish` on a non-nil event hands exactly one send — the event's
message under the event's topic — to the producer, and returns precisely
the producer's own outcome: an error if and only if the underlying send
failed, that same error, with no retry (no further sends). -/
theorem c8_publish_exact_propagation (c : Client) (ctx : Ctx) (ev : NsqEvent) :
    c.Publish ctx (some ev)
      = (.ret (c.Pub ev.Topic ev.Message), [(ev.Topic, ev.Message)]) ∧
    (∀ e : Err, (c.Publish ctx (some ev)).1 = .ret (some e)
      ↔ c.Pub ev.Topic ev.Message = some e) := by
  refine ⟨rfl, fun e => ?_⟩
  simp [Client.Publish]

/-- C10: `Publish` dereferences its event argument without a nil check: a
nil event pointer panics before any send, while a non-nil event never
produces that panic — a non-nil event is a precondition, not a handled
error case. -/
theorem c10_publish_nil_deref (c : Client) (ctx : Ctx) :
    c.Publish ctx none = (.nilDeref, []) ∧
    (∀ ev : NsqEvent, (c.Publish ctx (some ev)).1 ≠ .nilDeref) :=
  ⟨rfl, fun _ h => PublishResult.noConfusion h⟩

/-- C2 counterexample: at the concrete input v = []byte("a") — a byte-slice
value — and key "k" on the empty store, the memcache adapter's SetSingle
stores the JSON marshal of v, the quoted base64 document "YQ==";
GetSingle returns those raw bytes; and deserializing them yields the
string "YQ==", which is not equal to v. -/
theorem c2_counterexample_byte_slice :
    memcacheCache.SetSingle Store.empty "k" (.bytes (.rawStr "a"))
      = .ok (Store.set Store.empty "k" (.jsonOf (.jstr "YQ=="))) ∧
    memcacheCache.GetSingle (Store.set Store.empty "k" (.jsonOf (.jstr "YQ=="))) "k"
      = .ok (.bytes (.jsonOf (.jstr "YQ=="))) ∧
    jsonUnmarshal (.jsonOf (.jstr "YQ==")) = .ok (.plain (.jstr "YQ==")) ∧
    GoVal.plain (.jstr "YQ==") ≠ GoVal.bytes (.rawStr "a") := by
  refine ⟨rfl, ?_, rfl, fun h => GoVal.noConfusion h⟩
  simp [memcacheCache.GetSingle, memcacheClientGet, Store.set]

/-- C2 amended: on the memcache adapter, for every JSON-data value v
(null, boolean, number, string, array, object), SetSingle(k, v) then
GetSingle(k) yields raw bytes that deserialize to a value equal to v; a
byte-slice value instead deserializes to the base64 string encoding of its
content. -/
theorem c2_amended_round_trip (st : Store) (k : String) :
    (∀ v : JVal, ∃ st' b,
      memcacheCache.SetSingle st k (.plain v) = .ok st' ∧
      memcacheCache.GetSingle st' k = .ok (.bytes b) ∧
      jsonUnmarshal b = .ok (.plain v)) ∧
    (∀ bs : Bytes, ∃ st' b,
      memcacheCache.SetSingle st k (.bytes bs) = .ok st' ∧
      memcacheCache.GetSingle st' k = .ok (.bytes b) ∧
      jsonUnmarshal b = .ok (.plain (.jstr (base64Encode (bytesToString bs))))) := by
  constructor
  · intro v
    refine ⟨Store.set st k (.jsonOf v), .jsonOf v, rfl, ?_, rfl⟩
    simp [memcacheCache.GetSingle, memcacheClientGet, Store.set]
  · intro bs
    refine ⟨Store.set st k (.jsonOf (.jstr (base64Encode (bytesToString bs)))),
      .jsonOf (.jstr (base64Encode (bytesToString bs))), rfl, ?_, rfl⟩
    simp [memcacheCache.GetSingle, memcacheClientGet, Store.set]

/-- C5 counterexample: with the bytes of the JSON document for the string
"hi" stored under "k", the redis adapter's GetSingle returns the
deserialized string value, not the raw stored bytes; the raw stored bytes
are what the memcache adapter's GetSingle returns at the same store. -/
theorem c5_counterexample_redis_deserializes :
    redisCache.GetSingle (Store.set Store.empty "k" (.jsonOf (.jstr "hi"))) "k"
      = .ok (.plain (.jstr "hi")) ∧
    redisCache.GetSingle (Store.set Store.empty "k" (.jsonOf (.jstr "hi"))) "k"
      ≠ .ok (.bytes (.jsonOf (.jstr "hi"))) ∧
    memcacheCache.GetSingle (Store.set Store.empty "k" (.jsonOf (.jstr "hi"))) "k"
      = .ok (.bytes (.jsonOf (.jstr "hi"))) := by
  refine ⟨?_, ?_, ?_⟩
  · simp [redisCache.GetSingle, Store.set, jsonUnmarshal]
  · simp [redisCache.GetSingle, Store.set, jsonUnmarshal]
  · simp [memcacheCache.GetSingle, memcacheClientGet, Store.set]

/-- C5 amended: the redis adapter's Set path passes the value to the
client without pre-serialization (a plain string is stored as its raw
bytes, not as a JSON document), but its GetSingle applies JSON
deserialization to the stored bytes and never returns them raw; it is the
memcache adapter's GetSingle that returns the raw stored bytes without a
deserialization step. -/
theorem c5_amended_get_asymmetry (st : Store) (k : String) (b : Bytes) (s : String) :
    redisCache.SetSingle st k (.plain (.jstr s)) = .ok (Store.set st k (.rawStr s)) ∧
    memcacheCache.GetSingle (Store.set st k b) k = .ok (.bytes b) ∧
    redisCache.GetSingle (Store.set st k b) k = jsonUnmarshal b ∧
    (∀ v, redisCache.GetSingle (Store.set st k b) k = .ok v → ∃ w, v = .plain w) := by
  have h3 : redisCache.GetSingle (Store.set st k b) k = jsonUnmarshal b := by
    simp [redisCache.GetSingle, Store.set]
  refine ⟨rfl, ?_, h3, ?_⟩
  · simp [memcacheCache.GetSingle, memcacheClientGet, Store.set]
  · intro v h
    rw [h3] at h
    cases b with
    | jsonOf w => injection h with h'; exact ⟨w, h'.symm⟩
    | rawStr s' =>
      simp only [jsonUnmarshal] at h
      split at h
      · injection h with h'; exact ⟨_, h'.symm⟩
      · exact Except.noConfusion h

/-- C6: on the memcache backend, a successful SetMultiple followed by
GetMultiple returns the sequence of marshal-canonical images of the stored
records: the same length, the i-th returned record the image of the i-th
stored one, and on plain JSON-data sequences the returned sequence is the
stored one itself; on the redis backend SetMultiple never succeeds (the
client rejects a []interface\x7b\x7d argument), so the property holds
there vacuously. -/
theorem c6_set_get_multiple_order (st : Store) (k : String) (s : List GoVal) :
    (∃ st', memcacheCache.SetMultiple st k s = .ok st' ∧
      memcacheCache.GetMultiple st' k = .ok (s.map (fun g => GoVal.plain (goToJson g))) ∧
      (s.map (fun g => GoVal.plain (goToJson g))).length = s.length) ∧
    (∀ v : List JVal, s = v.map .plain →
      ∃ st', memcacheCache.SetMultiple st k s = .ok st' ∧
        memcacheCache.GetMultiple st' k = .ok s) ∧
    (∀ st', redisCache.SetMultiple st k s ≠ .ok st') := by
  refine ⟨?_, ?_, fun st' h => Except.noConfusion h⟩
  · refine ⟨Store.set st k (.jsonOf (.jarr (s.map goToJson))), rfl, ?_, by simp⟩
    simp [memcacheCache.GetMultiple, memcacheClientGet, Store.set, jsonUnmarshalMulti,
      List.map_map, Function.comp]
  · intro v hv
    subst hv
    refine ⟨Store.set st k (.jsonOf (.jarr ((v.map GoVal.plain).map goToJson))), rfl, ?_⟩
    simp [memcacheCache.GetMultiple, memcacheClientGet, Store.set, jsonUnmarshalMulti,
      List.map_map, Function.comp, goToJson]

/-- C7: `NewCache` wraps any `Cache` implementation: the wrapper's
promoted operations present a `Cache` value equal to the wrapped
implementation, and each of the four operations produces exactly the
result of calling that operation directly on the wrapped implementation. -/
theorem c7_newcache_delegates (c : CacheOps) (st : Store) (k : String)
    (v : GoVal) (l : List GoVal) :
    (NewCache c).ops = c ∧
    (NewCache c).SetSingle st k v = c.SetSingle st k v ∧
    (NewCache c).GetSingle st k = c.GetSingle st k ∧
    (NewCache c).SetMultiple st k l = c.SetMultiple st k l ∧
    (NewCache c).GetMultiple st k = c.GetMultiple st k :=
  ⟨rfl, rfl, rfl, rfl, rfl⟩
